import Mathlib

/-!
Verification of the chat client's protocol handling and state reconciliation
(src/components/chat.rs). The development embeds the wire codec
(serde derive semantics over a JSON value tree, plus a JSON text parser
standing for serde_json's from_str), the session state (roster and message
log) and the dispatch loop (Chat::update). A panic of the Rust code
(.unwrap() on an Err/None) is modelled by Option: a result of none means
the component panics.
-/

/-- JSON value tree. Numeric literals keep their lexeme unparsed: no field of
the chat wire schema is numeric, so a number can only ever be rejected by the
schema decoders, for which the lexeme suffices. -/
inductive Json where
  | null : Json
  | bool : Bool → Json
  | num : String → Json
  | str : String → Json
  | arr : List Json → Json
  | obj : List (String × Json) → Json

/-- Whitespace accepted between JSON tokens. -/
def isWs (c : Char) : Bool :=
  c = ' ' || c = '\n' || c = '\t' || c = '\r'

/-- Drop leading JSON whitespace. -/
def skipWs : List Char → List Char
  | [] => []
  | c :: rest => if isWs c then skipWs rest else c :: rest

/-- Value of a hexadecimal digit, by code point: 0-9, a-f, A-F. -/
def hexVal (c : Char) : Option Nat :=
  let n := c.toNat
  if 48 ≤ n ∧ n ≤ 57 then some (n - 48)
  else if 97 ≤ n ∧ n ≤ 102 then some (n - 87)
  else if 65 ≤ n ∧ n ≤ 70 then some (n - 55)
  else none

/-- Parse the body of a JSON string literal, after the opening quote:
returns the decoded characters and the input after the closing quote. -/
def parseStringRest : List Char → Option (List Char × List Char)
  | [] => none
  | '"' :: rest => some ([], rest)
  | '\\' :: 'u' :: h1 :: h2 :: h3 :: h4 :: rest =>
    match hexVal h1, hexVal h2, hexVal h3, hexVal h4 with
    | some a, some b, some c, some d =>
      match parseStringRest rest with
      | some (cs, r) => some (Char.ofNat (((a * 16 + b) * 16 + c) * 16 + d) :: cs, r)
      | none => none
    | _, _, _, _ => none
  | '\\' :: e :: rest =>
    match (match e with
           | 'n' => some '\n'
           | 't' => some '\t'
           | 'r' => some '\r'
           | '\\' => some '\\'
           | '/' => some '/'
           | '"' => some '"'
           | 'b' => some (Char.ofNat 8)
           | 'f' => some (Char.ofNat 12)
           | _ => none) with
    | some c =>
      match parseStringRest rest with
      | some (cs, r) => some (c :: cs, r)
      | none => none
    | none => none
  | c :: rest =>
    match parseStringRest rest with
    | some (cs, r) => some (c :: cs, r)
    | none => none

/-- Longest prefix of decimal digits, and the rest. -/
def takeDigits : List Char → (List Char × List Char)
  | [] => ([], [])
  | c :: rest =>
    if c.isDigit then
      let (ds, r) := takeDigits rest
      (c :: ds, r)
    else ([], c :: rest)

/-- Optional fractional part of a JSON number. -/
def parseFracPart : List Char → Option (List Char × List Char)
  | '.' :: r =>
    match takeDigits r with
    | ([], _) => none
    | (ds, r2) => some ('.' :: ds, r2)
  | cs => some ([], cs)

/-- Optional exponent part of a JSON number. -/
def parseExpPart : List Char → Option (List Char × List Char)
  | c :: r =>
    if c = 'e' ∨ c = 'E' then
      let (sgn, r1) :=
        match r with
        | s :: r2 => if s = '+' ∨ s = '-' then ([s], r2) else (([] : List Char), s :: r2)
        | [] => ([], [])
      match takeDigits r1 with
      | ([], _) => none
      | (ds, r2) => some (c :: (sgn ++ ds), r2)
    else some ([], c :: r)
  | [] => some ([], [])

/-- Parse a JSON number, keeping its lexeme. -/
def parseNumber (cs : List Char) : Option (String × List Char) :=
  let (sgn, cs1) :=
    match cs with
    | '-' :: r => ((['-'] : List Char), r)
    | _ => ([], cs)
  match takeDigits cs1 with
  | ([], _) => none
  | (ip, cs2) =>
    match parseFracPart cs2 with
    | none => none
    | some (fp, cs3) =>
      match parseExpPart cs3 with
      | none => none
      | some (ep, cs4) => some (String.mk (sgn ++ ip ++ fp ++ ep), cs4)

mutual

/-- Parse one JSON value; fuel bounds the nesting of recursive calls. -/
def parseValue : Nat → List Char → Option (Json × List Char)
  | 0, _ => none
  | fuel + 1, cs =>
    match cs with
    | [] => none
    | '\x7b' :: rest => parseObjAfterBrace fuel (skipWs rest)
    | '[' :: rest => parseArrAfterBracket fuel (skipWs rest)
    | '"' :: rest =>
      match parseStringRest rest with
      | some (body, r) => some (Json.str (String.mk body), r)
      | none => none
    | 't' :: 'r' :: 'u' :: 'e' :: rest => some (Json.bool true, rest)
    | 'f' :: 'a' :: 'l' :: 's' :: 'e' :: rest => some (Json.bool false, rest)
    | 'n' :: 'u' :: 'l' :: 'l' :: rest => some (Json.null, rest)
    | c :: _ =>
      if c = '-' ∨ c.isDigit then
        match parseNumber cs with
        | some (lex, r) => some (Json.num lex, r)
        | none => none
      else none

/-- After an opening bracket (whitespace skipped): an array body. -/
def parseArrAfterBracket : Nat → List Char → Option (Json × List Char)
  | 0, _ => none
  | fuel + 1, cs =>
    match cs with
    | ']' :: rest => some (Json.arr [], rest)
    | _ =>
      match parseArrElems fuel cs with
      | some (js, r) => some (Json.arr js, r)
      | none => none

/-- One or more comma-separated array elements, then the closing bracket. -/
def parseArrElems : Nat → List Char → Option (List Json × List Char)
  | 0, _ => none
  | fuel + 1, cs =>
    match parseValue fuel (skipWs cs) with
    | none => none
    | some (j, r) =>
      match skipWs r with
      | ',' :: r2 =>
        match parseArrElems fuel r2 with
        | some (js, r3) => some (j :: js, r3)
        | none => none
      | ']' :: r2 => some ([j], r2)
      | _ => none

/-- After an opening brace (whitespace skipped): an object body. -/
def parseObjAfterBrace : Nat → List Char → Option (Json × List Char)
  | 0, _ => none
  | fuel + 1, cs =>
    match cs with
    | '\x7d' :: rest => some (Json.obj [], rest)
    | _ =>
      match parseObjElems fuel cs with
      | some (fs, r) => some (Json.obj fs, r)
      | none => none

/-- One or more comma-separated key-value members, then the closing brace. -/
def parseObjElems : Nat → List Char → Option (List (String × Json) × List Char)
  | 0, _ => none
  | fuel + 1, cs =>
    match skipWs cs with
    | '"' :: rest =>
      match parseStringRest rest with
      | none => none
      | some (key, r) =>
        match skipWs r with
        | ':' :: r2 =>
          match parseValue fuel (skipWs r2) with
          | none => none
          | some (v, r3) =>
            match skipWs r3 with
            | ',' :: r4 =>
              match parseObjElems fuel r4 with
              | some (fs, r5) => some ((String.mk key, v) :: fs, r5)
              | none => none
            | '\x7d' :: r4 => some ([(String.mk key, v)], r4)
            | _ => none
        | _ => none
    | _ => none

end

/-- Parse a whole JSON document, requiring all input to be consumed: the model
of serde_json::from_str's text-to-value layer. The fuel is an upper bound on
the recursion depth, which grows by at most three per consumed character. -/
def parseJson (s : String) : Option Json :=
  match parseValue (3 * s.length + 9) (skipWs s.toList) with
  | some (j, rest) => if skipWs rest = [] then some j else none
  | none => none

/-- enum MsgTypes, with serde rename_all = "lowercase". -/
inductive MsgTypes where
  | Users : MsgTypes
  | Register : MsgTypes
  | Message : MsgTypes
deriving DecidableEq, Repr

/-- struct MessageData. The source's field `from` is a Lean keyword and is
embedded as `from_`. -/
structure MessageData where
  from_ : String
  message : String
deriving DecidableEq, Repr

/-- struct WebSocketMessage, with serde rename_all = "camelCase". -/
structure WebSocketMessage where
  message_type : MsgTypes
  data_array : Option (List String)
  data : Option String
deriving DecidableEq, Repr

/-- struct UserProfile. -/
structure UserProfile where
  name : String
  avatar : String
deriving DecidableEq, Repr

/-- The state-carrying fields of struct Chat: the roster and the message log.
The NodeRef, event-bus bridge and websocket handle are external resources
with no bearing on the protocol state. -/
structure ChatState where
  users : List UserProfile
  messages : List MessageData
deriving DecidableEq, Repr

/-- Serialization of MsgTypes: serde writes a lowercase tag string. -/
def MsgTypes.toJson : MsgTypes → Json
  | MsgTypes.Users => Json.str "users"
  | MsgTypes.Register => Json.str "register"
  | MsgTypes.Message => Json.str "message"

/-- Deserialization of MsgTypes from its tag string. -/
def MsgTypes.fromJson : Json → Option MsgTypes
  | Json.str "users" => some MsgTypes.Users
  | Json.str "register" => some MsgTypes.Register
  | Json.str "message" => some MsgTypes.Message
  | _ => none

/-- Serialization of WebSocketMessage: serde emits every field, writing an
absent Option as null, under camelCase names. -/
def WebSocketMessage.toJson (m : WebSocketMessage) : Json :=
  Json.obj
    [("messageType", m.message_type.toJson),
     ("dataArray",
       match m.data_array with
       | none => Json.null
       | some xs => Json.arr (xs.map Json.str)),
     ("data",
       match m.data with
       | none => Json.null
       | some s => Json.str s)]

/-- Walk the members of a WebSocketMessage JSON object the way serde's
generated visitor does: known keys are recorded, a duplicate known key is an
error, unknown keys are ignored. -/
def collectFields : List (String × Json) → Option Json → Option Json → Option Json →
    Option (Option Json × Option Json × Option Json)
  | [], mt, da, d => some (mt, da, d)
  | (k, v) :: rest, mt, da, d =>
    if k = "messageType" then
      match mt with
      | some _ => none
      | none => collectFields rest (some v) da d
    else if k = "dataArray" then
      match da with
      | some _ => none
      | none => collectFields rest mt (some v) d
    else if k = "data" then
      match d with
      | some _ => none
      | none => collectFields rest mt da (some v)
    else collectFields rest mt da d

/-- Decode every element of a JSON array as a string (Vec of String). -/
def decodeStrings : List Json → Option (List String)
  | [] => some []
  | Json.str s :: rest =>
    match decodeStrings rest with
    | some ss => some (s :: ss)
    | none => none
  | _ :: _ => none

/-- serde's Option of Vec of String field: absent or null is none, an array of
strings is some, anything else is an error. -/
def decodeOptStrings : Option Json → Option (Option (List String))
  | none => some none
  | some Json.null => some none
  | some (Json.arr xs) =>
    match decodeStrings xs with
    | some ss => some (some ss)
    | none => none
  | some _ => none

/-- serde's Option of String field: absent or null is none, a string is some,
anything else is an error. -/
def decodeOptString : Option Json → Option (Option String)
  | none => some none
  | some Json.null => some none
  | some (Json.str s) => some (some s)
  | some _ => none

/-- Deserialization of WebSocketMessage from a JSON value: requires an object,
a present and valid messageType tag, and well-typed optional payload fields. -/
def WebSocketMessage.fromJson : Json → Option WebSocketMessage
  | Json.obj fields =>
    match collectFields fields none none none with
    | none => none
    | some (mtj, daj, dj) =>
      match mtj with
      | none => none
      | some mtv =>
        match MsgTypes.fromJson mtv with
        | none => none
        | some mt =>
          match decodeOptStrings daj, decodeOptString dj with
          | some da, some d => some ⟨mt, da, d⟩
          | _, _ => none
  | _ => none

/-- Walk the members of a MessageData JSON object: keys `from` and `message`,
duplicates are an error, unknown keys are ignored. -/
def collectMDFields : List (String × Json) → Option Json → Option Json →
    Option (Option Json × Option Json)
  | [], f, m => some (f, m)
  | (k, v) :: rest, f, m =>
    if k = "from" then
      match f with
      | some _ => none
      | none => collectMDFields rest (some v) m
    else if k = "message" then
      match m with
      | some _ => none
      | none => collectMDFields rest f (some v)
    else collectMDFields rest f m

/-- Deserialization of MessageData: both fields are required strings. -/
def MessageData.fromJson : Json → Option MessageData
  | Json.obj fields =>
    match collectMDFields fields none none with
    | some (some (Json.str f), some (Json.str m)) => some ⟨f, m⟩
    | _ => none
  | _ => none

/-- serde_json::from_str::<WebSocketMessage>: parse the text, then decode. -/
def decodeFrame (s : String) : Option WebSocketMessage :=
  match parseJson s with
  | some j => WebSocketMessage.fromJson j
  | none => none

/-- serde_json::from_str::<MessageData>, used on the nested `data` payload. -/
def parseMessageData (s : String) : Option MessageData :=
  match parseJson s with
  | some j => MessageData.fromJson j
  | none => none

/-- Avatar URL built in the Users branch of Chat::update. -/
def avatarUrl (u : String) : String :=
  "https://avatars.dicebear.com/api/adventurer-neutral/" ++ u ++ ".svg"

/-- The dispatch on message_type inside Msg::HandleMsg, after the frame has
been decoded. none models a panic of the Rust code: in the Message branch the
source unwraps both msg.data and the nested serde_json::from_str result. The
returned Bool is Chat::update's re-render flag. -/
def applyEnvelope (c : ChatState) (m : WebSocketMessage) : Option (ChatState × Bool) :=
  match m.message_type with
  | MsgTypes.Users =>
    let users_from_message := m.data_array.getD []
    some (⟨users_from_message.map (fun u => ⟨u, avatarUrl u⟩), c.messages⟩, true)
  | MsgTypes.Message =>
    match m.data with
    | none => none
    | some d =>
      match parseMessageData d with
      | none => none
      | some message_data => some (⟨c.users, c.messages ++ [message_data]⟩, true)
  | MsgTypes.Register => some (c, false)

/-- enum Msg. SubmitMessage carries the chat input element's current value,
or none when the NodeRef cast fails. -/
inductive Msg where
  | HandleMsg : String → Msg
  | SubmitMessage : Option String → Msg

/-- Chat::update. The result is none when the code panics, otherwise the next
state, the re-render flag, and the envelopes handed to the websocket channel.
Msg::HandleMsg first unwraps serde_json::from_str on the raw frame, so a
malformed frame is a panic; Msg::SubmitMessage sends a Message envelope built
from the input value and never touches users or messages. -/
def Chat.update (c : ChatState) : Msg → Option (ChatState × Bool × List WebSocketMessage)
  | Msg.HandleMsg s =>
    match decodeFrame s with
    | none => none
    | some m =>
      match applyEnvelope c m with
      | none => none
      | some (c', b) => some (c', b, [])
  | Msg.SubmitMessage input =>
    match input with
    | some v => some (c, false, [⟨MsgTypes.Message, none, some v⟩])
    | none => some (c, false, [])

/-- Run the dispatch loop over a sequence of already-decoded envelopes,
stopping at a panic. -/
def processEnvelopes : ChatState → List WebSocketMessage → Option ChatState
  | c, [] => some c
  | c, e :: rest =>
    match applyEnvelope c e with
    | some (c', _) => processEnvelopes c' rest
    | none => none

example : parseJson "\x7b\"messageType\":\"users\",\"dataArray\":[\"alice\",\"bob\"]\x7d"
    = some (Json.obj [("messageType", Json.str "users"),
                      ("dataArray", Json.arr [Json.str "alice", Json.str "bob"])]) := rfl

example : decodeFrame "\x7b\"messageType\":\"users\",\"dataArray\":[\"alice\",\"bob\"]\x7d"
    = some ⟨MsgTypes.Users, some ["alice", "bob"], none⟩ := by
  decide

example : parseMessageData "\x7b\"from\":\"ghost\",\"message\":\"hi\"\x7d"
    = some ⟨"ghost", "hi"⟩ := by
  decide

example : decodeFrame "hello" = none := by decide

theorem applyEnvelope_users (c : ChatState) (da : Option (List String)) (d : Option String) :
    applyEnvelope c ⟨MsgTypes.Users, da, d⟩
      = some (⟨(da.getD []).map (fun u => ⟨u, avatarUrl u⟩), c.messages⟩, true) := rfl

theorem applyEnvelope_register (c : ChatState) (da : Option (List String)) (d : Option String) :
    applyEnvelope c ⟨MsgTypes.Register, da, d⟩ = some (c, false) := rfl

theorem applyEnvelope_message_ok (c : ChatState) (da : Option (List String)) (d : String)
    (md : MessageData) (h : parseMessageData d = some md) :
    applyEnvelope c ⟨MsgTypes.Message, da, some d⟩
      = some (⟨c.users, c.messages ++ [md]⟩, true) := by
  simp [applyEnvelope, h]

theorem applyEnvelope_message_shape (c : ChatState) (da : Option (List String))
    (d : Option String) (c' : ChatState) (b : Bool)
    (h : applyEnvelope c ⟨MsgTypes.Message, da, d⟩ = some (c', b)) :
    ∃ md, c' = ⟨c.users, c.messages ++ [md]⟩ ∧ b = true := by
  cases d with
  | none => simp [applyEnvelope] at h
  | some dd =>
    cases hp : parseMessageData dd with
    | none => rw [applyEnvelope] at h; simp [hp] at h
    | some md =>
      rw [applyEnvelope] at h
      simp [hp] at h
      exact ⟨md, h.1.symm, h.2⟩

theorem decodeStrings_map_str (xs : List String) :
    decodeStrings (xs.map Json.str) = some xs := by
  induction xs with
  | nil => rfl
  | cons h t ih => simp [decodeStrings, ih]

theorem collectFields_toJson (v1 v2 v3 : Json) :
    collectFields [("messageType", v1), ("dataArray", v2), ("data", v3)] none none none
      = some (some v1, some v2, some v3) := rfl

/-- Claim C1: the claim says a frame that is not a well-formed envelope is
discarded and the session continues with roster and log unchanged. The code
instead unwraps the serde_json::from_str result, so on the non-JSON frame
"hello" Chat::update panics, modelled as the result none, for every state. -/
theorem c1_malformed_frame_panics :
    ∀ (c : ChatState),
      decodeFrame "hello" = none ∧ Chat.update c (Msg.HandleMsg "hello") = none :=
  fun _ => ⟨rfl, rfl⟩

/-- Claim C2: the claim says a Message envelope with absent `data`, or with a
`data` string that does not decode to a from/message pair, is discarded with
the state unchanged and no crash. The code instead unwraps msg.data and the
nested serde_json::from_str result, so both frames make Chat::update panic
(result none), for every state. -/
theorem c2_bad_nested_data_panics :
    ∀ (c : ChatState),
      Chat.update c (Msg.HandleMsg "\x7b\"messageType\":\"message\"\x7d") = none
      ∧ Chat.update c
          (Msg.HandleMsg "\x7b\"messageType\":\"message\",\"data\":\"notjson\"\x7d") = none :=
  fun _ => ⟨rfl, rfl⟩

/-- Claim C3: a Users envelope with a dataArray of names replaces the roster
with exactly the names mapped to profiles whose avatar is the dicebear URL of
the name, discarding the previous roster; the result depends on the names
alone, and processing the same Users envelope twice equals processing it
once. -/
theorem c3_users_roster_replacement :
    ∀ (c : ChatState) (names : List String) (d : Option String),
      applyEnvelope c ⟨MsgTypes.Users, some names, d⟩
        = some (⟨names.map (fun u =>
            ⟨u, "https://avatars.dicebear.com/api/adventurer-neutral/" ++ u ++ ".svg"⟩),
            c.messages⟩, true)
      ∧ processEnvelopes c [⟨MsgTypes.Users, some names, d⟩, ⟨MsgTypes.Users, some names, d⟩]
          = processEnvelopes c [⟨MsgTypes.Users, some names, d⟩] := by
  intro c names d
  refine ⟨rfl, ?_⟩
  simp [processEnvelopes, applyEnvelope]

/-- Claim C4 counterexample: the claim says duplicate names in a Users
envelope collapse to a single roster entry per name. On input
["alice", "alice"] the code produces a roster with two entries, both named
"alice", so two entries share a name. -/
theorem c4_counterexample :
    (applyEnvelope ⟨[], []⟩ ⟨MsgTypes.Users, some ["alice", "alice"], none⟩).map
        (fun p => p.1.users.map UserProfile.name) = some ["alice", "alice"]
    ∧ ¬ (["alice", "alice"] : List String).Nodup :=
  ⟨rfl, by decide⟩

/-- Claim C4 as amended: a Users update produces one roster entry per input
name occurrence, in order, with no collapsing; hence the roster's names are
exactly the input names, and they are pairwise distinct whenever the input
names are (which the server is expected to guarantee). -/
theorem c4_roster_names_nodup :
    ∀ (c : ChatState) (names : List String) (d : Option String) (c' : ChatState) (b : Bool),
      applyEnvelope c ⟨MsgTypes.Users, some names, d⟩ = some (c', b) →
      (c'.users.map UserProfile.name = names
       ∧ (names.Nodup → (c'.users.map UserProfile.name).Nodup)) := by
  intro c names d c' b h
  rw [applyEnvelope_users] at h
  have hc : c' = ⟨names.map (fun u => ⟨u, avatarUrl u⟩), c.messages⟩ := by
    have := (Option.some.inj h)
    exact (congrArg Prod.fst this).symm
  subst hc
  have hnames : ((⟨names.map (fun u => ⟨u, avatarUrl u⟩), c.messages⟩ : ChatState).users.map
      UserProfile.name) = names := by
    have hcomp : (UserProfile.name ∘ fun u => (⟨u, avatarUrl u⟩ : UserProfile)) = id := rfl
    simp only [List.map_map, hcomp, List.map_id]
  exact ⟨hnames, fun hn => by rw [hnames]; exact hn⟩

/-- Claim C4 witness: the amended theorem applied to the duplicate-free input
["alice", "bob"]. -/
theorem c4_roster_names_nodup_witness :
    (["alice", "bob"] : List String).Nodup
    ∧ ((⟨[⟨"alice", avatarUrl "alice"⟩, ⟨"bob", avatarUrl "bob"⟩],
          ([] : List MessageData)⟩ : ChatState).users.map UserProfile.name).Nodup :=
  ⟨by decide,
   (c4_roster_names_nodup ⟨[], []⟩ ["alice", "bob"] none
      ⟨[⟨"alice", avatarUrl "alice"⟩, ⟨"bob", avatarUrl "bob"⟩], []⟩ true (by decide)).2
     (by decide)⟩

/-- Claim C5: a Message envelope whose nested data decodes to a from/message
pair appends that ChatMessage at the end of the log unconditionally, with no
reference to the roster: the statement holds for every current state, so in
particular when no roster entry matches the sender. -/
theorem c5_append_unconditional :
    ∀ (c : ChatState) (da : Option (List String)) (d : String) (md : MessageData),
      parseMessageData d = some md →
      applyEnvelope c ⟨MsgTypes.Message, da, some d⟩
        = some (⟨c.users, c.messages ++ [md]⟩, true) := by
  intro c da d md h
  exact applyEnvelope_message_ok c da d md h

/-- Claim C5 witness: a message from "ghost" is appended although the roster
only contains "alice". -/
theorem c5_append_unconditional_witness :
    parseMessageData "\x7b\"from\":\"ghost\",\"message\":\"hi\"\x7d" = some ⟨"ghost", "hi"⟩
    ∧ applyEnvelope ⟨[⟨"alice", avatarUrl "alice"⟩], []⟩
        ⟨MsgTypes.Message, none, some "\x7b\"from\":\"ghost\",\"message\":\"hi\"\x7d"⟩
        = some (⟨[⟨"alice", avatarUrl "alice"⟩], [⟨"ghost", "hi"⟩]⟩, true) :=
  ⟨by decide,
   c5_append_unconditional ⟨[⟨"alice", avatarUrl "alice"⟩], []⟩ none
     "\x7b\"from\":\"ghost\",\"message\":\"hi\"\x7d" ⟨"ghost", "hi"⟩ (by decide)⟩

/-- Claim C6: a Users envelope with no dataArray is decoded with an absent
array (unwrap_or_default supplies the empty list), processing succeeds, and
the roster becomes empty; shown both at the envelope level for every state
and end to end on the raw frame. -/
theorem c6_users_missing_array :
    (∀ (c : ChatState) (d : Option String),
      applyEnvelope c ⟨MsgTypes.Users, none, d⟩ = some (⟨[], c.messages⟩, true))
    ∧ decodeFrame "\x7b\"messageType\":\"users\"\x7d"
        = some ⟨MsgTypes.Users, none, none⟩
    ∧ (∀ (c : ChatState),
        Chat.update c (Msg.HandleMsg "\x7b\"messageType\":\"users\"\x7d")
          = some (⟨[], c.messages⟩, true, [])) :=
  ⟨fun _ _ => rfl, by decide, fun _ => rfl⟩

/-- Claim C7: processing a sequence of successfully decoded Message envelopes
appends their pairs to the log in exactly the order received, verbatim; and
every operation of the component only ever extends the log, never removing or
mutating existing entries. -/
theorem c7_order_preservation :
    (∀ (c : ChatState) (pairs : List (String × MessageData)),
      (∀ p ∈ pairs, parseMessageData p.1 = some p.2) →
      processEnvelopes c (pairs.map (fun p => ⟨MsgTypes.Message, none, some p.1⟩))
        = some ⟨c.users, c.messages ++ pairs.map Prod.snd⟩)
    ∧ (∀ (c : ChatState) (m : Msg) (c' : ChatState) (b : Bool) (out : List WebSocketMessage),
        Chat.update c m = some (c', b, out) → ∃ t, c'.messages = c.messages ++ t) := by
  constructor
  · intro c pairs
    induction pairs generalizing c with
    | nil => intro _; simp [processEnvelopes]
    | cons p ps ih =>
      intro h
      have hp : parseMessageData p.1 = some p.2 := h p (List.mem_cons_self p ps)
      have hrest : ∀ q ∈ ps, parseMessageData q.1 = some q.2 :=
        fun q hq => h q (List.mem_cons_of_mem p hq)
      simp only [List.map_cons, processEnvelopes,
        applyEnvelope_message_ok c none p.1 p.2 hp]
      rw [ih ⟨c.users, c.messages ++ [p.2]⟩ hrest]
      simp
  · intro c m c' b out h
    cases m with
    | HandleMsg s =>
      rw [Chat.update] at h
      split at h
      · exact Option.noConfusion h
      · rename_i msg _
        split at h
        · exact Option.noConfusion h
        · rename_i c2 b2 heq2
          have hc : c2 = c' := congrArg (fun x => x.1) (Option.some.inj h)
          obtain ⟨mt, da, d⟩ := msg
          cases mt with
          | Users =>
            rw [applyEnvelope_users] at heq2
            have h2 := Option.some.inj heq2
            have hx : c2 = ⟨(da.getD []).map (fun u => ⟨u, avatarUrl u⟩), c.messages⟩ :=
              (congrArg Prod.fst h2).symm
            exact ⟨[], by rw [← hc, hx]; simp⟩
          | Register =>
            rw [applyEnvelope_register] at heq2
            have h2 := Option.some.inj heq2
            have hx : c2 = c := (congrArg Prod.fst h2).symm
            exact ⟨[], by rw [← hc, hx]; simp⟩
          | Message =>
            obtain ⟨md, hmd, _⟩ := applyEnvelope_message_shape c da d c2 b2 heq2
            exact ⟨[md], by rw [← hc, hmd]⟩
    | SubmitMessage input =>
      cases input with
      | some v =>
        rw [Chat.update] at h
        have hc : c = c' := congrArg (fun x => x.1) (Option.some.inj h)
        exact ⟨[], by rw [← hc]; simp⟩
      | none =>
        rw [Chat.update] at h
        have hc : c = c' := congrArg (fun x => x.1) (Option.some.inj h)
        exact ⟨[], by rw [← hc]; simp⟩

/-- Claim C7 witness: the two-message scenario from the spec, starting from
the empty state. -/
theorem c7_order_preservation_witness :
    parseMessageData "\x7b\"from\":\"A\",\"message\":\"hi\"\x7d" = some ⟨"A", "hi"⟩
    ∧ parseMessageData "\x7b\"from\":\"B\",\"message\":\"yo\"\x7d" = some ⟨"B", "yo"⟩
    ∧ processEnvelopes ⟨[], []⟩
        [⟨MsgTypes.Message, none, some "\x7b\"from\":\"A\",\"message\":\"hi\"\x7d"⟩,
         ⟨MsgTypes.Message, none, some "\x7b\"from\":\"B\",\"message\":\"yo\"\x7d"⟩]
        = some ⟨[], [⟨"A", "hi"⟩, ⟨"B", "yo"⟩]⟩ :=
  ⟨by decide, by decide, by
    exact c7_order_preservation.1 ⟨[], []⟩
      [("\x7b\"from\":\"A\",\"message\":\"hi\"\x7d", ⟨"A", "hi"⟩),
       ("\x7b\"from\":\"B\",\"message\":\"yo\"\x7d", ⟨"B", "yo"⟩)]
      (by decide)⟩

/-- Claim C8: a Register envelope (the only message type besides Users and
Message) is a no-op that reports no re-render (false), and every envelope
branch that completes with a different type reports a re-render (true). -/
theorem c8_register_noop_flags :
    ∀ (c : ChatState) (e : WebSocketMessage) (c' : ChatState) (b : Bool),
      applyEnvelope c e = some (c', b) →
      ((e.message_type = MsgTypes.Register → c' = c ∧ b = false)
       ∧ (e.message_type ≠ MsgTypes.Register → b = true)) := by
  intro c e c' b h
  obtain ⟨mt, da, d⟩ := e
  cases mt with
  | Users =>
    rw [applyEnvelope_users] at h
    have := Option.some.inj h
    exact ⟨fun hh => MsgTypes.noConfusion hh, fun _ => (congrArg Prod.snd this).symm⟩
  | Register =>
    rw [applyEnvelope_register] at h
    have := Option.some.inj h
    exact ⟨fun _ => ⟨(congrArg Prod.fst this).symm, (congrArg Prod.snd this).symm⟩,
           fun hh => absurd rfl hh⟩
  | Message =>
    obtain ⟨md, _, hb⟩ := applyEnvelope_message_shape c da d c' b h
    exact ⟨fun hh => MsgTypes.noConfusion hh, fun _ => hb⟩

/-- Claim C8 witness: a concrete Register envelope leaves the state unchanged
and reports false. -/
theorem c8_register_noop_flags_witness :
    applyEnvelope ⟨[], []⟩ ⟨MsgTypes.Register, none, some "alice"⟩ = some (⟨[], []⟩, false)
    ∧ ((⟨[], []⟩ : ChatState) = ⟨[], []⟩ ∧ false = false) :=
  ⟨by decide,
   (c8_register_noop_flags ⟨[], []⟩ ⟨MsgTypes.Register, none, some "alice"⟩ ⟨[], []⟩ false
      (by decide)).1 rfl⟩

/-- Claim C9: for every constructible WebSocketMessage value, any of the three
message types and any combination of present and absent payload fields,
decoding the serialized envelope reproduces the value exactly. The statement
is at the JSON-value level, the layer the derive attributes of the source
define; serde_json's text rendering of that value is the external library. -/
theorem c9_round_trip :
    ∀ (e : WebSocketMessage),
      WebSocketMessage.fromJson (WebSocketMessage.toJson e) = some e := by
  intro e
  obtain ⟨mt, da, d⟩ := e
  cases mt <;> cases da <;> cases d <;>
    simp [WebSocketMessage.toJson, WebSocketMessage.fromJson, MsgTypes.toJson,
      MsgTypes.fromJson, collectFields_toJson, decodeOptStrings, decodeOptString,
      decodeStrings_map_str]

/-- Claim C10: each operation mutates only its own part of the state: a Users
envelope leaves the message log unchanged, a Message envelope leaves the
roster unchanged, and SubmitMessage leaves roster and log unchanged, reports
no re-render, and only hands an outbound Message envelope built from the
input value to the channel. -/
theorem c10_frame_effects :
    ∀ (c : ChatState) (e : WebSocketMessage) (c' : ChatState) (b : Bool)
      (input : Option String),
      (applyEnvelope c e = some (c', b) →
        ((e.message_type = MsgTypes.Users → c'.messages = c.messages)
         ∧ (e.message_type = MsgTypes.Message → c'.users = c.users)))
      ∧ Chat.update c (Msg.SubmitMessage input)
          = some (c, false,
              match input with
              | some v => [⟨MsgTypes.Message, none, some v⟩]
              | none => []) := by
  intro c e c' b input
  constructor
  · intro h
    obtain ⟨mt, da, d⟩ := e
    cases mt with
    | Users =>
      rw [applyEnvelope_users] at h
      have h2 := Option.some.inj h
      have hx : c' = ⟨(da.getD []).map (fun u => ⟨u, avatarUrl u⟩), c.messages⟩ :=
        (congrArg Prod.fst h2).symm
      exact ⟨fun _ => by rw [hx], fun hh => MsgTypes.noConfusion hh⟩
    | Register =>
      exact ⟨fun hh => MsgTypes.noConfusion hh, fun hh => MsgTypes.noConfusion hh⟩
    | Message =>
      obtain ⟨md, hmd, _⟩ := applyEnvelope_message_shape c da d c' b h
      exact ⟨fun hh => MsgTypes.noConfusion hh, fun _ => by rw [hmd]⟩
  · cases input <;> rfl

/-- Claim C10 witness: a Users envelope keeps an existing log entry, and
SubmitMessage with input "hey" keeps the whole state, reports false and sends
one Message envelope. -/
theorem c10_frame_effects_witness :
    applyEnvelope ⟨[], [⟨"bob", "m"⟩]⟩ ⟨MsgTypes.Users, some ["alice"], none⟩
      = some (⟨[⟨"alice", avatarUrl "alice"⟩], [⟨"bob", "m"⟩]⟩, true)
    ∧ ((⟨[⟨"alice", avatarUrl "alice"⟩], [⟨"bob", "m"⟩]⟩ : ChatState).messages
        = (⟨[], [⟨"bob", "m"⟩]⟩ : ChatState).messages)
    ∧ Chat.update ⟨[], [⟨"bob", "m"⟩]⟩ (Msg.SubmitMessage (some "hey"))
        = some (⟨[], [⟨"bob", "m"⟩]⟩, false, [⟨MsgTypes.Message, none, some "hey"⟩]) :=
  ⟨by decide,
   ((c10_frame_effects ⟨[], [⟨"bob", "m"⟩]⟩ ⟨MsgTypes.Users, some ["alice"], none⟩
       ⟨[⟨"alice", avatarUrl "alice"⟩], [⟨"bob", "m"⟩]⟩ true (some "hey")).1
      (by decide)).1 rfl,
   by
     exact (c10_frame_effects ⟨[], [⟨"bob", "m"⟩]⟩ ⟨MsgTypes.Users, some ["alice"], none⟩
       ⟨[⟨"alice", avatarUrl "alice"⟩], [⟨"bob", "m"⟩]⟩ true (some "hey")).2⟩
